import Mathlib

/-!
Verification of the Classifier/Namer component of the file-organizer
program (src/organizer.py), via a shallow embedding of its data model
and operations.  Python strings are modelled as Lean `String`
(lists of characters), Python dicts with fixed insertion order as
association lists, and the fallible I/O performed by `organize_file`
as an explicit outcome parameter.
-/

namespace Organizer

/-! ## Character and string utilities -/

/-- Python `str.lower`, character-wise, covering the alphabets the
keyword tables use (ASCII `A`-`Z`, Cyrillic `А`-`Я` and `Ё`). -/
def pyLowerChar (c : Char) : Char :=
  let n := c.toNat
  if 65 ≤ n ∧ n ≤ 90 then Char.ofNat (n + 32)
  else if 0x410 ≤ n ∧ n ≤ 0x42F then Char.ofNat (n + 0x20)
  else if n = 0x401 then Char.ofNat 0x451
  else c

/-- Python `str.lower` on a whole string. -/
def pyLower (s : String) : String := ⟨s.data.map pyLowerChar⟩

/-- Does `p` occur at the very start of `s`?  (List-level.) -/
def startsWithL : List Char → List Char → Bool
  | [], _ => true
  | _ :: _, [] => false
  | a :: as, b :: bs => a == b && startsWithL as bs

/-- Python's substring test `sub in s` (list-level): does `sub` occur
contiguously anywhere in `s`? -/
def occursIn (sub : List Char) : List Char → Bool
  | [] => sub.isEmpty
  | c :: cs => startsWithL sub (c :: cs) || occursIn sub cs

/-- Python `name.startswith(".")`. -/
def startsWithDot (name : String) : Bool :=
  match name.data with
  | '.' :: _ => true
  | _ => false

/-! ## Decimal rendering (Python `str(n)` / `f"{n:02d}"`) -/

/-- Decimal digit character: `digitChar10 3 = '3'`. -/
def digitChar10 (d : Nat) : Char := Char.ofNat (48 + d)

/-- Big-endian decimal digits of `n`, fuel-based so that it is
structurally recursive (the fuel `n + 1` always suffices). -/
def decDigitsAux : Nat → Nat → List Char
  | 0, _ => []
  | fuel + 1, n =>
    if n < 10 then [digitChar10 n]
    else decDigitsAux fuel (n / 10) ++ [digitChar10 (n % 10)]

/-- Python `str(n)` for a natural number. -/
def decRepr (n : Nat) : String := ⟨decDigitsAux (n + 1) n⟩

/-- Python `f"{n:02d}"`: decimal, zero-padded on the left to width 2. -/
def pad2 (n : Nat) : String := if n < 10 then "0" ++ decRepr n else decRepr n

/-- Reads a decimal digit string back to a number (left fold). -/
def parseDec (s : List Char) : Nat := s.foldl (fun acc c => acc * 10 + (c.toNat - 48)) 0

/-! ## `pathlib.Path(name).suffix` -/

/-- Index of the last `'.'` in the list, if any. -/
def lastDotIdx : List Char → Option Nat
  | [] => none
  | c :: cs =>
    match lastDotIdx cs with
    | some i => some (i + 1)
    | none => if c == '.' then some 0 else none

/-- Python `pathlib.Path(name).suffix`: the final extension including
the leading dot; empty when the last dot is at position 0, at the very
end, or absent. -/
def pySuffix (name : String) : String :=
  match lastDotIdx name.data with
  | some i => if 0 < i ∧ i < name.data.length - 1 then ⟨name.data.drop i⟩ else ""
  | none => ""

/-! ## Keyword tables (from src/organizer.py, in source order) -/

/-- The `subject_patterns` dict of `analyze_filename`, as an ordered
association list. -/
def subject_patterns : List (String × List String) :=
  [("math", ["матема", "math", "алгебр", "геометр"]),
   ("programming", ["програм", "program", "код", "алгоритм"]),
   ("database", ["баз", "database", "sql", "бд"]),
   ("web", ["веб", "web", "html", "css", "js"]),
   ("english", ["англ", "english", "инглиш"]),
   ("physics", ["физик", "physics"])]

/-- The `FILE_CATEGORIES` class dict, as an ordered association list. -/
def FILE_CATEGORIES : List (String × List String) :=
  [("lecture", ["лекция", "lecture", "теория", "theory", "доклад"]),
   ("practice", ["практика", "practice", "задание", "task", "упражнение"]),
   ("project", ["проект", "project", "курсовая", "диплом", "исследование"]),
   ("lab", ["лаба", "lab", "лабораторная", "experiment"]),
   ("material", ["материал", "material", "ресурс", "resource", "дополнительно"]),
   ("exam", ["экзамен", "exam", "зачет", "test", "контрольная"])]

/-- The `FILE_TYPES` class dict, as an ordered association list. -/
def FILE_TYPES : List (String × List String) :=
  [("documents", [".pdf", ".doc", ".docx", ".txt", ".rtf"]),
   ("presentations", [".ppt", ".pptx", ".key"]),
   ("spreadsheets", [".xls", ".xlsx", ".csv"]),
   ("code", [".py", ".java", ".cpp", ".js", ".html", ".css", ".sql"]),
   ("archives", [".zip", ".rar", ".7z", ".tar", ".gz"]),
   ("images", [".jpg", ".jpeg", ".png", ".gif", ".bmp", ".svg"]),
   ("other", [])]

/-- Python `any(kw in s for kw in kws)`. -/
def kwMatches (s : String) (kws : List String) : Bool :=
  kws.any (fun k => occursIn k.data s.data)

/-- First label in the ordered table whose keyword list has a
substring match in `sLower` (the `for ... break` loops of
`analyze_filename`). -/
def firstMatch : List (String × List String) → String → Option String
  | [], _ => none
  | (label, kws) :: rest, sLower =>
    if kwMatches sLower kws then some label else firstMatch rest sLower

/-- First label in the ordered table whose extension list contains
`ext` (the file-type loop, `ext in extensions`). -/
def typeLookup : List (String × List String) → String → Option String
  | [], _ => none
  | (t, exts) :: rest, ext => if ext ∈ exts then some t else typeLookup rest ext

/-! ## Date extraction

The two regular expression patterns of `analyze_filename`,
`(\d{2})[-.](\d{2})[-.](\d{4})` and `(\d{4})[-.](\d{2})[-.](\d{2})`,
are fixed-length, so Python's `re.search` semantics is exactly
"leftmost position where the shape matches".  We embed the regex
atoms (`\d{k}` and the class `[-.]`) and build the two patterns from
them. -/

/-- Regex atom `\d{n}`: consume exactly `n` digits, returning them and
the rest. -/
def takeDigits : Nat → List Char → Option (List Char × List Char)
  | 0, l => some ([], l)
  | _ + 1, [] => none
  | n + 1, c :: cs =>
    if c.isDigit then (takeDigits n cs).map (fun p => (c :: p.1, p.2)) else none

/-- Regex atom `[-.]`: consume one separator character. -/
def takeSep : List Char → Option (List Char)
  | [] => none
  | c :: cs => if c == '-' || c == '.' then some cs else none

/-- Attempt pattern `(\d{2})[-.](\d{2})[-.](\d{4})` at the start of
the list, returning the three captured groups. -/
def matchPat1 (l : List Char) : Option (List Char × List Char × List Char) :=
  match takeDigits 2 l with
  | none => none
  | some (g1, l1) =>
    match takeSep l1 with
    | none => none
    | some l2 =>
      match takeDigits 2 l2 with
      | none => none
      | some (g2, l3) =>
        match takeSep l3 with
        | none => none
        | some l4 =>
          match takeDigits 4 l4 with
          | none => none
          | some (g3, _) => some (g1, g2, g3)

/-- Attempt pattern `(\d{4})[-.](\d{2})[-.](\d{2})` at the start of
the list, returning the three captured groups. -/
def matchPat2 (l : List Char) : Option (List Char × List Char × List Char) :=
  match takeDigits 4 l with
  | none => none
  | some (g1, l1) =>
    match takeSep l1 with
    | none => none
    | some l2 =>
      match takeDigits 2 l2 with
      | none => none
      | some (g2, l3) =>
        match takeSep l3 with
        | none => none
        | some l4 =>
          match takeDigits 2 l4 with
          | none => none
          | some (g3, _) => some (g1, g2, g3)

/-- `re.search` for a fixed-length pattern: try the pattern at each
start position left to right (neither pattern matches the empty
suffix). -/
def searchL (f : List Char → Option α) : List Char → Option α
  | [] => none
  | c :: cs =>
    match f (c :: cs) with
    | some r => some r
    | none => searchL f cs

/-- The body of the date loop of `analyze_filename`: from the three
captured groups, `year, month, day = groups` when the first group has
four digits, else `day, month, year = groups`; the result is the
f-string `f"{year}-{month}-{day}"`. -/
def groupsToDate (g : List Char × List Char × List Char) : String :=
  if g.1.length = 4 then ⟨g.1⟩ ++ "-" ++ ⟨g.2.1⟩ ++ "-" ++ ⟨g.2.2⟩
  else ⟨g.2.2⟩ ++ "-" ++ ⟨g.2.1⟩ ++ "-" ++ ⟨g.1⟩

/-- The `for pattern in date_patterns` loop of `analyze_filename`:
search each pattern in turn over the original filename and stop at
the first one that matches anywhere. -/
def extractDate (filename : String) : Option String :=
  match searchL matchPat1 filename.data with
  | some g => some (groupsToDate g)
  | none =>
    match searchL matchPat2 filename.data with
    | some g => some (groupsToDate g)
    | none => none

/-- Modelled from the spec's words for comparison with `extractDate`
(refinement): test `DD[-.]MM[-.]YYYY` then `YYYY[-.]MM[-.]DD` against
the original filename, first structural match wins, and the captured
groups are reassembled as `YYYY-MM-DD` according to which pattern
matched (day-month-year for the first, year-month-day for the
second), with no calendar-validity check. -/
def specDateExtraction (filename : String) : Option String :=
  match searchL matchPat1 filename.data with
  | some (d, m, y) => some (⟨y⟩ ++ "-" ++ ⟨m⟩ ++ "-" ++ ⟨d⟩)
  | none =>
    match searchL matchPat2 filename.data with
    | some (y, m, d) => some (⟨y⟩ ++ "-" ++ ⟨m⟩ ++ "-" ++ ⟨d⟩)
    | none => none

/-! ## FileInfo and the classifier -/

/-- The dict built by `analyze_filename` (the FileInfo record of the
spec).  Fields that Python may leave as `None` are `Option`s. -/
structure FileInfo where
  original_name : String
  subject : Option String
  category : String
  date : Option String
  file_type : String
  new_name : Option String
deriving DecidableEq

/-- `analyze_filename` from src/organizer.py: lower-case the name for
keyword matching, find the first matching subject and category, search
the two date patterns over the original name, and look the
(lower-cased) extension up in the type table.  Unmatched fields keep
their initial values (`None`, `'other'`). -/
def analyze_filename (filename : String) : FileInfo :=
  let name_lower := pyLower filename
  { original_name := filename
    subject := firstMatch subject_patterns name_lower
    category := (firstMatch FILE_CATEGORIES name_lower).getD "other"
    date := extractDate filename
    file_type := (typeLookup FILE_TYPES (pyLower (pySuffix filename))).getD "other"
    new_name := none }

/-! ## The namer -/

/-- Python `'_'.join(parts)`. -/
def joinUnderscore : List String → String
  | [] => ""
  | [x] => x
  | x :: y :: rest => x ++ "_" ++ joinUnderscore (y :: rest)

/-- `generate_new_name` from src/organizer.py.  The current date
(used only when the info has no date) is passed explicitly as
`today`.  Note the Python truthiness tests `if file_info['subject']:`
and `if file_info['date']:`: an empty string behaves like `None`. -/
def generate_new_name (file_info : FileInfo) (counter : Nat) (today : String) : String :=
  let subjectPart :=
    match file_info.subject with
    | some s => if s = "" then "unknown" else s
    | none => "unknown"
  let datePart :=
    match file_info.date with
    | some d => if d = "" then today else d
    | none => today
  let name_parts := [subjectPart, file_info.category, datePart, file_info.file_type, pad2 counter]
  joinUnderscore name_parts ++ pySuffix file_info.original_name

/-- The `while True` uniqueness loop of `organize_file`, with explicit
fuel: generate a candidate name with the current counter; if it
already exists in the destination subdirectory, retry with the next
counter.  `none` means the fuel ran out before a free name was
found. -/
def uniqueNameLoop (existing : List String) (info : FileInfo) (today : String) :
    Nat → Nat → Option String
  | 0, _ => none
  | fuel + 1, counter =>
    let n := generate_new_name info counter today
    if n ∈ existing then uniqueNameLoop existing info today fuel (counter + 1) else some n

/-! ## The per-file processing step (`organize_file`) and run state

`organize_file` performs I/O inside one `try`/`except` block.  We
model the fallible I/O calls by an explicit outcome parameter naming
which call (if any) raises, in source order: `failBeforeCopy` covers a
failure up to and including `mkdir` of the category subdirectory,
`failCopy` a failure of `shutil.copy2`, and `failSave` a failure
inside `save_file_info`, which in the source runs after the copy and
after `processed` was already incremented.  `shutil.copy2` is not
atomic: a raise mid-stream (disk full, read error after the
destination was opened) leaves a truncated file at the destination
path, and the source's `except` branch performs no cleanup — so
`failCopy` carries a flag saying whether the interrupted copy left a
partial file behind. -/

/-- Which fallible I/O call of `organize_file` raises, if any.  In
`failCopy msg partialLeft`, `partialLeft` says whether the failed
`shutil.copy2` left a partially written file at the destination
path. -/
inductive Outcome where
  | ok : Outcome
  | failBeforeCopy : String → Outcome
  | failCopy : String → Bool → Outcome
  | failSave : String → Outcome
deriving DecidableEq

/-- One line of the log stream, structured. -/
inductive LogEntry where
  | debugSkip : String → LogEntry
  | infoProcessed : String → String → LogEntry
  | errorEntry : String → String → LogEntry
deriving DecidableEq

/-- The `self.stats` dict (without the start timestamp). -/
structure Stats where
  total_files : Nat
  processed : Nat
  skipped : Nat
  errors : Nat
  categories : List (String × Nat)
deriving DecidableEq

/-- The mutable context of a run: statistics, the set of files present
in the destination tree (as subdirectory/name pairs, in creation
order) and the log. -/
structure OrgState where
  stats : Stats
  dest : List (String × String)
  log : List LogEntry
deriving DecidableEq

/-- State at the start of a run. -/
def initState : OrgState :=
  { stats := { total_files := 0, processed := 0, skipped := 0, errors := 0, categories := [] }
    dest := [], log := [] }

/-- Names already present in one destination subdirectory (what the
`new_path.exists()` checks of the uniqueness loop can observe). -/
def destNames (dest : List (String × String)) (subdir : String) : List String :=
  (dest.filter (fun p => p.1 = subdir)).map (fun p => p.2)

/-- `self.stats['categories'][cat] += 1` with the missing-key insert,
on an insertion-ordered association list. -/
def bumpCategory : List (String × Nat) → String → List (String × Nat)
  | [], c => [(c, 1)]
  | (k, v) :: rest, c =>
    if k = c then (k, v + 1) :: rest else (k, v) :: bumpCategory rest c

/-- The system/hidden-file test of `organize_file`:
`file_path.name.startswith('.') or file_path.name in ['desktop.ini', 'thumbs.db']`. -/
def isSystemFile (name : String) : Bool :=
  startsWithDot name || (name = "desktop.ini" || name = "thumbs.db")

/-- `organize_file` from src/organizer.py, as a state transformer.
Returns the new state and the function's boolean result.  Control
flow follows the source: analyze, count the file, skip system files,
then (unless an I/O call raises, in which case the `except` branch
logs the error and bumps the error tally) resolve a unique name, copy,
bump `processed` and the category tally, log, and save metadata. -/
def organize_file (filename : String) (outcome : Outcome) (s : OrgState) (today : String) :
    OrgState × Bool :=
  let info := analyze_filename filename
  let stats1 := { s.stats with total_files := s.stats.total_files + 1 }
  if isSystemFile filename then
    ({ s with stats := { stats1 with skipped := stats1.skipped + 1 }
              log := s.log ++ [LogEntry.debugSkip filename] }, false)
  else
    let subdir := info.category
    match outcome with
    | Outcome.failBeforeCopy msg =>
      ({ s with stats := { stats1 with errors := stats1.errors + 1 }
                log := s.log ++ [LogEntry.errorEntry filename msg] }, false)
    | Outcome.failCopy msg partialLeft =>
      -- the uniqueness loop has already fixed new_path when copy2 raises;
      -- nothing removes a partially written new_path afterwards
      let existing := destNames s.dest subdir
      match uniqueNameLoop existing info today (existing.length + 1) 1 with
      | some newName =>
        ({ s with stats := { stats1 with errors := stats1.errors + 1 }
                  dest := if partialLeft then s.dest ++ [(subdir, newName)] else s.dest
                  log := s.log ++ [LogEntry.errorEntry filename msg] }, false)
      | none =>
        ({ s with stats := stats1 }, false)
    | Outcome.ok =>
      let existing := destNames s.dest subdir
      match uniqueNameLoop existing info today (existing.length + 1) 1 with
      | some newName =>
        ({ stats := { stats1 with processed := stats1.processed + 1
                                  categories := bumpCategory stats1.categories subdir }
           dest := s.dest ++ [(subdir, newName)]
           log := s.log ++ [LogEntry.infoProcessed filename newName] }, true)
      | none =>
        -- unreachable: the loop always succeeds within its fuel
        ({ s with stats := stats1 }, false)
    | Outcome.failSave msg =>
      let existing := destNames s.dest subdir
      match uniqueNameLoop existing info today (existing.length + 1) 1 with
      | some newName =>
        ({ stats := { stats1 with processed := stats1.processed + 1
                                  categories := bumpCategory stats1.categories subdir
                                  errors := stats1.errors + 1 }
           dest := s.dest ++ [(subdir, newName)]
           log := s.log ++ [LogEntry.infoProcessed filename newName,
                            LogEntry.errorEntry filename msg] }, false)
      | none =>
        ({ s with stats := stats1 }, false)

/-- The per-file loop of `run`: process each file in order with its
outcome; a failure on one file never stops the loop. -/
def runFiles (today : String) : List (String × Outcome) → OrgState → OrgState
  | [], s => s
  | (f, oc) :: rest, s => runFiles today rest (organize_file f oc s today).1

/-- Does an outcome mean a raise inside `save_file_info` (after the
success tally was already bumped)? -/
def isFailSave : Outcome → Bool
  | Outcome.failSave _ => true
  | _ => false

/-- Does processing this entry increment `processed`?  (Not a system
file, and the copy itself succeeded.) -/
def countsProcessed (entry : String × Outcome) : Bool :=
  !isSystemFile entry.1 &&
    (match entry.2 with
     | Outcome.ok => true
     | Outcome.failSave _ => true
     | _ => false)

/-- The stats balance invariant: every counted file is in exactly one
outcome tally. -/
def statsBalanced (s : OrgState) : Prop :=
  s.stats.total_files = s.stats.processed + s.stats.skipped + s.stats.errors

/-! ## JSON metadata serialization (`save_file_info`)

`save_file_info` writes the FileInfo dict with
`json.dump(..., ensure_ascii=False, indent=2)`.  We model the
serialization of each field value as Python's JSON scalar rendering:
`null` for `None`, a quoted string with the `ensure_ascii=False`
escaping otherwise (only `"` and the backslash and control characters
below `0x20` are escaped; everything else, in particular non-Latin
text, passes through verbatim). -/

/-- Lower-case hexadecimal digit character. -/
def hexDigitChar (n : Nat) : Char :=
  if n < 10 then Char.ofNat (48 + n) else Char.ofNat (87 + n)

/-- Escaping of one character inside a JSON string literal as done by
`json.dump` with `ensure_ascii=False`. -/
def jsonEscapeChar (c : Char) : List Char :=
  if c = '"' then ['\\', '"']
  else if c = '\\' then ['\\', '\\']
  else if c = '\n' then ['\\', 'n']
  else if c = '\r' then ['\\', 'r']
  else if c = '\t' then ['\\', 't']
  else if c.toNat = 8 then ['\\', 'b']
  else if c.toNat = 12 then ['\\', 'f']
  else if c.toNat < 32 then
    ['\\', 'u', '0', '0', hexDigitChar (c.toNat / 16), hexDigitChar (c.toNat % 16)]
  else [c]

/-- Escaping of a whole string body. -/
def jsonEscape (s : List Char) : List Char := (s.map jsonEscapeChar).flatten

/-- A string field value as written to the metadata file (with the
surrounding quotes). -/
def encodeStrField (s : String) : String := "\"" ++ ⟨jsonEscape s.data⟩ ++ "\""

/-- An optional field value as written to the metadata file. -/
def encodeOptField : Option String → String
  | none => "null"
  | some s => encodeStrField s

/-- The FileInfo dict as the ordered list of key/rendered-value pairs
that `json.dump` writes. -/
def encodeFileInfo (fi : FileInfo) : List (String × String) :=
  [("original_name", encodeStrField fi.original_name),
   ("subject", encodeOptField fi.subject),
   ("category", encodeStrField fi.category),
   ("date", encodeOptField fi.date),
   ("file_type", encodeStrField fi.file_type),
   ("new_name", encodeOptField fi.new_name)]

/-- Numeric value of a hexadecimal digit character. -/
def hexVal (c : Char) : Option Nat :=
  if '0' ≤ c ∧ c ≤ '9' then some (c.toNat - 48)
  else if 'a' ≤ c ∧ c ≤ 'f' then some (c.toNat - 87)
  else if 'A' ≤ c ∧ c ≤ 'F' then some (c.toNat - 55)
  else none

/-- Modelled from the spec: decoding of the short escape sequences of
the JSON reload. -/
def escCharDecode (e : Char) : Option Char :=
  if e = '"' then some '"'
  else if e = '\\' then some '\\'
  else if e = '/' then some '/'
  else if e = 'n' then some '\n'
  else if e = 'r' then some '\r'
  else if e = 't' then some '\t'
  else if e = 'b' then some (Char.ofNat 8)
  else if e = 'f' then some (Char.ofNat 12)
  else none

/-- Modelled from the spec: the string-literal reader of the JSON
reload (the source has no reader; the spec requires the round-trip).
Consumes the escaped body up to the closing quote and returns the
decoded content and the rest of the input. -/
def parseStringBody : List Char → Option (List Char × List Char)
  | [] => none
  | c :: rest =>
    if c = '"' then some ([], rest)
    else if c = '\\' then
      match rest with
      | [] => none
      | e :: r =>
        if e = 'u' then
          match r with
          | h1 :: h2 :: h3 :: h4 :: r2 =>
            match hexVal h1, hexVal h2, hexVal h3, hexVal h4 with
            | some a, some b, some c2, some d =>
              (parseStringBody r2).map
                (fun p => (Char.ofNat (((a * 16 + b) * 16 + c2) * 16 + d) :: p.1, p.2))
            | _, _, _, _ => none
          | _ => none
        else
          match escCharDecode e with
          | some d => (parseStringBody r).map (fun p => (d :: p.1, p.2))
          | none => none
    else (parseStringBody rest).map (fun p => (c :: p.1, p.2))

/-- Modelled from the spec: reload of one string field value. -/
def decodeStrField (v : String) : Option String :=
  match v.data with
  | '"' :: rest =>
    match parseStringBody rest with
    | some (s, []) => some ⟨s⟩
    | _ => none
  | _ => none

/-- Modelled from the spec: reload of one optional field value. -/
def decodeOptField (v : String) : Option (Option String) :=
  if v = "null" then some none
  else (decodeStrField v).map some

/-- Modelled from the spec: reload of a whole FileInfo record from the
ordered key/value pairs of the metadata file. -/
def decodeFileInfo : List (String × String) → Option FileInfo
  | [(k1, v1), (k2, v2), (k3, v3), (k4, v4), (k5, v5), (k6, v6)] =>
    if k1 = "original_name" ∧ k2 = "subject" ∧ k3 = "category" ∧
       k4 = "date" ∧ k5 = "file_type" ∧ k6 = "new_name" then
      match decodeStrField v1, decodeOptField v2, decodeStrField v3,
            decodeOptField v4, decodeStrField v5, decodeOptField v6 with
      | some a, some b, some c, some d, some e, some f =>
        some { original_name := a, subject := b, category := c,
               date := d, file_type := e, new_name := f }
      | _, _, _, _, _, _ => none
    else none
  | _ => none

/-! # Helper lemmas

## Decimal rendering -/

theorem digitChar10_toNat : ∀ d : Nat, d < 10 → (digitChar10 d).toNat = 48 + d := by decide

theorem digitChar10_ne_zero_char : ∀ d : Nat, 1 ≤ d → d < 10 → digitChar10 d ≠ '0' := by decide

theorem parseDec_append_digit (l : List Char) (c : Char) :
    parseDec (l ++ [c]) = parseDec l * 10 + (c.toNat - 48) := by
  simp [parseDec, List.foldl_append]

theorem decDigitsAux_parse : ∀ fuel n, n < fuel → parseDec (decDigitsAux fuel n) = n := by
  intro fuel
  induction fuel with
  | zero => intro n h; omega
  | succ f ih =>
    intro n h
    by_cases h10 : n < 10
    · simp [decDigitsAux, h10, parseDec]
      rw [digitChar10_toNat n h10]
      omega
    · have hdiv : n / 10 < n := Nat.div_lt_self (by omega) (by omega)
      have hf : n / 10 < f := by omega
      rw [decDigitsAux, if_neg h10, parseDec_append_digit, ih (n / 10) hf,
        digitChar10_toNat (n % 10) (Nat.mod_lt n (by omega))]
      omega

theorem decRepr_parse (n : Nat) : parseDec (decRepr n).data = n :=
  decDigitsAux_parse (n + 1) n (Nat.lt_succ_self n)

theorem decRepr_inj {a b : Nat} (h : decRepr a = decRepr b) : a = b := by
  have h2 := congrArg (fun s => parseDec s.data) h
  simpa [decRepr_parse] using h2

theorem decDigitsAux_head_ne_zero : ∀ fuel n, n < fuel → 1 ≤ n →
    ∃ c l, decDigitsAux fuel n = c :: l ∧ c ≠ '0' := by
  intro fuel
  induction fuel with
  | zero => intro n h; omega
  | succ f ih =>
    intro n h h1
    by_cases h10 : n < 10
    · exact ⟨digitChar10 n, [], by simp [decDigitsAux, h10],
        digitChar10_ne_zero_char n h1 h10⟩
    · have hdiv : n / 10 < n := Nat.div_lt_self (by omega) (by omega)
      obtain ⟨c, l, heq, hc⟩ := ih (n / 10) (by omega) (by omega)
      exact ⟨c, l ++ [digitChar10 (n % 10)], by simp [decDigitsAux, h10, heq], hc⟩

theorem pad2_data_lt {n : Nat} (h : n < 10) : (pad2 n).data = ['0', digitChar10 n] := by
  simp [pad2, h, decRepr, decDigitsAux, String.data_append]

theorem pad2_data_ge {n : Nat} (h : ¬ n < 10) :
    ∃ c l, (pad2 n).data = c :: l ∧ c ≠ '0' := by
  have hdiv : n / 10 < n := Nat.div_lt_self (by omega) (by omega)
  obtain ⟨c, l, heq, hc⟩ := decDigitsAux_head_ne_zero n (n / 10) (by omega) (by omega)
  refine ⟨c, l ++ [digitChar10 (n % 10)], ?_, hc⟩
  simp [pad2, h, decRepr, decDigitsAux, heq]

theorem pad2_inj : Function.Injective pad2 := by
  intro a b h
  have hd := congrArg String.data h
  by_cases ha : a < 10 <;> by_cases hb : b < 10
  · rw [pad2_data_lt ha, pad2_data_lt hb] at hd
    have h2 : (digitChar10 a).toNat = (digitChar10 b).toNat := by
      simp only [List.cons.injEq] at hd
      rw [hd.2.1]
    rw [digitChar10_toNat a ha, digitChar10_toNat b hb] at h2
    omega
  · obtain ⟨c, l, heq, hc⟩ := pad2_data_ge hb
    rw [pad2_data_lt ha, heq] at hd
    simp only [List.cons.injEq] at hd
    exact absurd hd.1.symm hc
  · obtain ⟨c, l, heq, hc⟩ := pad2_data_ge ha
    rw [pad2_data_lt hb, heq] at hd
    simp only [List.cons.injEq] at hd
    exact absurd hd.1 hc
  · have h2 : decRepr a = decRepr b := by
      rwa [pad2, pad2, if_neg ha, if_neg hb] at h
    exact decRepr_inj h2

/-! ## Generated names: shape and injectivity in the counter -/

theorem generate_new_name_shape (info : FileInfo) (today : String) :
    ∃ A B : List Char, ∀ c,
      (generate_new_name info c today).data = A ++ ((pad2 c).data ++ B) := by
  refine ⟨?_, (pySuffix info.original_name).data, fun c => ?_⟩
  · exact ((match info.subject with
      | some s => if s = "" then "unknown" else s
      | none => "unknown") ++ "_" ++ (info.category ++ "_" ++
        ((match info.date with
          | some d => if d = "" then today else d
          | none => today) ++ "_" ++ (info.file_type ++ "_")))).data
  · simp [generate_new_name, joinUnderscore, String.data_append, List.append_assoc]

theorem generate_new_name_counter_inj (info : FileInfo) (today : String)
    {c₁ c₂ : Nat} (h : generate_new_name info c₁ today = generate_new_name info c₂ today) :
    c₁ = c₂ := by
  obtain ⟨A, B, hshape⟩ := generate_new_name_shape info today
  have hd := congrArg String.data h
  rw [hshape c₁, hshape c₂] at hd
  have h2 := List.append_cancel_left hd
  have h3 := List.append_cancel_right h2
  exact pad2_inj (String.ext h3)

/-! ## Termination of the uniqueness loop -/

theorem exists_fresh (existing : List String) (info : FileInfo) (today : String) :
    ∃ k, k < existing.length + 1 ∧ generate_new_name info (1 + k) today ∉ existing := by
  by_contra hall
  push_neg at hall
  set f : Fin (existing.length + 1) → String :=
    fun k => generate_new_name info (1 + k.val) today with hf
  have h1 : ∀ a ∈ (Finset.univ : Finset (Fin (existing.length + 1))), f a ∈ existing.toFinset :=
    fun a _ => List.mem_toFinset.2 (hall a.val a.isLt)
  have h2 : Set.InjOn f (Finset.univ : Finset (Fin (existing.length + 1))) := by
    intro a _ b _ hab
    have := generate_new_name_counter_inj info today hab
    exact Fin.ext (by omega)
  have hcard := Finset.card_le_card_of_injOn f h1 h2
  have hlen := List.toFinset_card_le existing
  simp [Finset.card_univ] at hcard
  omega

theorem uniqueNameLoop_of_exists (existing : List String) (info : FileInfo) (today : String) :
    ∀ fuel start, (∃ k, k < fuel ∧ generate_new_name info (start + k) today ∉ existing) →
    ∃ name, uniqueNameLoop existing info today fuel start = some name ∧ name ∉ existing := by
  intro fuel
  induction fuel with
  | zero => rintro start ⟨k, hk, _⟩; omega
  | succ f ih =>
    rintro start ⟨k, hk, hfree⟩
    by_cases hmem : generate_new_name info start today ∈ existing
    · have hk0 : k ≠ 0 := by
        rintro rfl
        exact hfree (by simpa using hmem)
      have hfree2 : generate_new_name info ((start + 1) + (k - 1)) today ∉ existing := by
        have : (start + 1) + (k - 1) = start + k := by omega
        rwa [this]
      obtain ⟨name, hloop, hn⟩ := ih (start + 1) ⟨k - 1, by omega, hfree2⟩
      exact ⟨name, by simp [uniqueNameLoop, hmem, hloop], hn⟩
    · exact ⟨generate_new_name info start today, by simp [uniqueNameLoop, hmem], hmem⟩

/-- The uniqueness loop of `organize_file`, started as in the source
(counter 1) with fuel one more than the number of existing files,
always yields a name, and that name is fresh. -/
theorem uniqueNameLoop_total (existing : List String) (info : FileInfo) (today : String) :
    ∃ name, uniqueNameLoop existing info today (existing.length + 1) 1 = some name ∧
      name ∉ existing := by
  obtain ⟨k, hk, hfree⟩ := exists_fresh existing info today
  exact uniqueNameLoop_of_exists existing info today (existing.length + 1) 1 ⟨k, hk, hfree⟩

/-! ## First-match keyword lookup -/

theorem firstMatch_none_iff (pairs : List (String × List String)) (s : String) :
    firstMatch pairs s = none ↔ ∀ p ∈ pairs, kwMatches s p.2 = false := by
  induction pairs with
  | nil => simp [firstMatch]
  | cons hd tl ih =>
    obtain ⟨label, kws⟩ := hd
    simp only [firstMatch]
    by_cases hm : kwMatches s kws = true
    · rw [if_pos hm]
      constructor
      · intro h; cases h
      · intro h
        have h2 := h (label, kws) (List.mem_cons_self _ _)
        simp only at h2
        simp [h2] at hm
    · rw [if_neg hm, ih]
      rw [Bool.not_eq_true] at hm
      constructor
      · intro h p hp
        rcases List.mem_cons.1 hp with rfl | hp2
        · simpa using hm
        · exact h p hp2
      · intro h p hp
        exact h p (List.mem_cons_of_mem _ hp)

theorem firstMatch_some_iff (pairs : List (String × List String)) (s : String) (lab : String) :
    firstMatch pairs s = some lab ↔
      ∃ pre kws post, pairs = pre ++ (lab, kws) :: post ∧
        (∀ p ∈ pre, kwMatches s p.2 = false) ∧ kwMatches s kws = true := by
  induction pairs with
  | nil =>
    simp only [firstMatch]
    constructor
    · intro h; cases h
    · rintro ⟨pre, kws, post, habs, -, -⟩
      cases pre <;> simp at habs
  | cons hd tl ih =>
    obtain ⟨label, kws0⟩ := hd
    simp only [firstMatch]
    by_cases hm : kwMatches s kws0 = true
    · rw [if_pos hm]
      constructor
      · intro h
        injection h with h
        subst h
        exact ⟨[], kws0, tl, rfl, fun p hp => absurd hp (List.not_mem_nil p), hm⟩
      · rintro ⟨pre, kws, post, heq, hpre, hkws⟩
        cases pre with
        | nil =>
          rw [List.nil_append] at heq
          injection heq with h1 h2
          injection h1 with hl hk
          rw [hl]
        | cons q qre =>
          rw [List.cons_append] at heq
          injection heq with h1 h2
          have hq := hpre q (List.mem_cons_self _ _)
          rw [← h1] at hq
          simp only at hq
          simp [hq] at hm
    · rw [if_neg hm, ih]
      rw [Bool.not_eq_true] at hm
      constructor
      · rintro ⟨pre, kws, post, heq, hpre, hkws⟩
        refine ⟨(label, kws0) :: pre, kws, post, ?_, ?_, hkws⟩
        · rw [heq, List.cons_append]
        · intro p hp
          rcases List.mem_cons.1 hp with rfl | hp2
          · simpa using hm
          · exact hpre p hp2
      · rintro ⟨pre, kws, post, heq, hpre, hkws⟩
        cases pre with
        | nil =>
          rw [List.nil_append] at heq
          injection heq with h1 h2
          injection h1 with hl hk
          subst hk
          simp [hkws] at hm
        | cons q qre =>
          rw [List.cons_append] at heq
          injection heq with h1 h2
          exact ⟨qre, kws, post, h2, fun p hp => hpre p (List.mem_cons_of_mem _ hp), hkws⟩

/-! ## Substring matching survives character-wise lower-casing -/

theorem startsWithL_map (g : Char → Char) :
    ∀ sub s : List Char, startsWithL sub s = true →
      startsWithL (sub.map g) (s.map g) = true := by
  intro sub
  induction sub with
  | nil => intro s _; simp [startsWithL]
  | cons a as ih =>
    intro s h
    cases s with
    | nil => simp [startsWithL] at h
    | cons b bs =>
      simp only [startsWithL, Bool.and_eq_true, beq_iff_eq] at h
      simp only [List.map_cons, startsWithL, Bool.and_eq_true, beq_iff_eq]
      exact ⟨by rw [h.1], ih bs h.2⟩

theorem occursIn_map (g : Char → Char) (sub : List Char) :
    ∀ s : List Char, occursIn sub s = true → occursIn (sub.map g) (s.map g) = true := by
  intro s
  induction s with
  | nil =>
    intro h
    simp only [occursIn, List.isEmpty_iff] at h
    simp [h, occursIn]
  | cons c cs ih =>
    intro h
    simp only [occursIn, Bool.or_eq_true] at h
    rcases h with h | h
    · simp only [List.map_cons, occursIn, Bool.or_eq_true]
      exact Or.inl (by simpa using startsWithL_map g sub (c :: cs) h)
    · simp only [List.map_cons, occursIn, Bool.or_eq_true]
      exact Or.inr (ih h)

/-! ## Date patterns: group arities -/

theorem takeDigits_length : ∀ (n : Nat) (l g r : List Char),
    takeDigits n l = some (g, r) → g.length = n := by
  intro n
  induction n with
  | zero =>
    intro l g r h
    simp only [takeDigits, Option.some.injEq, Prod.mk.injEq] at h
    rw [← h.1]
    rfl
  | succ m ih =>
    intro l g r h
    cases l with
    | nil => simp [takeDigits] at h
    | cons c cs =>
      simp only [takeDigits] at h
      by_cases hd : c.isDigit
      · rw [if_pos hd] at h
        cases htd : takeDigits m cs with
        | none => rw [htd] at h; simp at h
        | some p =>
          rw [htd] at h
          simp only [Option.map_some', Option.some.injEq, Prod.mk.injEq] at h
          rw [← h.1]
          simp [ih cs p.1 p.2 (by rw [htd])]
      · rw [if_neg hd] at h; simp at h

theorem matchPat1_lengths (l g1 g2 g3 : List Char)
    (h : matchPat1 l = some (g1, g2, g3)) :
    g1.length = 2 ∧ g2.length = 2 ∧ g3.length = 4 := by
  unfold matchPat1 at h
  split at h
  · cases h
  next ga la h1 =>
    split at h
    · cases h
    next l2 h2 =>
      split at h
      · cases h
      next gb lb h3 =>
        split at h
        · cases h
        next l4 h4 =>
          split at h
          · cases h
          next gc lc h5 =>
            simp only [Option.some.injEq, Prod.mk.injEq] at h
            obtain ⟨e1, e2, e3⟩ := h
            subst e1; subst e2; subst e3
            exact ⟨takeDigits_length 2 l _ _ h1, takeDigits_length 2 l2 _ _ h3,
              takeDigits_length 4 l4 _ _ h5⟩

theorem matchPat2_lengths (l g1 g2 g3 : List Char)
    (h : matchPat2 l = some (g1, g2, g3)) :
    g1.length = 4 ∧ g2.length = 2 ∧ g3.length = 2 := by
  unfold matchPat2 at h
  split at h
  · cases h
  next ga la h1 =>
    split at h
    · cases h
    next l2 h2 =>
      split at h
      · cases h
      next gb lb h3 =>
        split at h
        · cases h
        next l4 h4 =>
          split at h
          · cases h
          next gc lc h5 =>
            simp only [Option.some.injEq, Prod.mk.injEq] at h
            obtain ⟨e1, e2, e3⟩ := h
            subst e1; subst e2; subst e3
            exact ⟨takeDigits_length 4 l _ _ h1, takeDigits_length 2 l2 _ _ h3,
              takeDigits_length 2 l4 _ _ h5⟩

theorem searchL_some {α : Type} (f : List Char → Option α) :
    ∀ (l : List Char) (r : α), searchL f l = some r → ∃ l', f l' = some r := by
  intro l
  induction l with
  | nil => intro r h; cases h
  | cons c cs ih =>
    intro r h
    simp only [searchL] at h
    split at h
    next v hf => exact ⟨c :: cs, hf.trans h⟩
    next hf => exact ih r h

/-- The date computed by the source's loop (with its runtime check on
the length of the first captured group) coincides with the spec's
description (reassembly fixed by which pattern matched). -/
theorem extractDate_eq_spec (f : String) : extractDate f = specDateExtraction f := by
  unfold extractDate specDateExtraction
  cases hs1 : searchL matchPat1 f.data with
  | some g =>
    obtain ⟨d, m, y⟩ := g
    obtain ⟨l2, hl2⟩ := searchL_some matchPat1 f.data (d, m, y) hs1
    have hlen := (matchPat1_lengths l2 d m y hl2).1
    simp [groupsToDate, hlen]
  | none =>
    cases hs2 : searchL matchPat2 f.data with
    | some g =>
      obtain ⟨y, m, d⟩ := g
      obtain ⟨l2, hl2⟩ := searchL_some matchPat2 f.data (y, m, d) hs2
      have hlen := (matchPat2_lengths l2 y m d hl2).1
      simp [groupsToDate, hlen]
    | none => rfl

/-! ## JSON string-literal round trip -/

theorem hexVal_hexDigitChar : ∀ n : Nat, n < 16 → hexVal (hexDigitChar n) = some n := by decide

theorem parseStringBody_quot (rest : List Char) :
    parseStringBody ('"' :: rest) = some ([], rest) := by
  rw [parseStringBody.eq_def]
  cases rest <;> simp

theorem parseStringBody_default (c : Char) (rest : List Char) (h1 : c ≠ '"') (h2 : c ≠ '\\') :
    parseStringBody (c :: rest) = (parseStringBody rest).map (fun p => (c :: p.1, p.2)) := by
  rw [parseStringBody.eq_def]
  cases rest <;> simp [h1, h2]

theorem parseStringBody_esc (e : Char) (r : List Char) (he : e ≠ 'u') :
    parseStringBody ('\\' :: e :: r) =
      (match escCharDecode e with
       | some d => (parseStringBody r).map (fun p => (d :: p.1, p.2))
       | none => none) := by
  rw [parseStringBody.eq_def]
  simp [he]

theorem parseStringBody_u (h1 h2 h3 h4 : Char) (r2 : List Char) :
    parseStringBody ('\\' :: 'u' :: h1 :: h2 :: h3 :: h4 :: r2) =
      (match hexVal h1, hexVal h2, hexVal h3, hexVal h4 with
       | some a, some b, some c2, some d =>
         (parseStringBody r2).map
           (fun p => (Char.ofNat (((a * 16 + b) * 16 + c2) * 16 + d) :: p.1, p.2))
       | _, _, _, _ => none) := by
  rw [parseStringBody.eq_def]
  simp

theorem parseStringBody_escapeChar (c : Char) (rest : List Char) :
    parseStringBody (jsonEscapeChar c ++ rest) =
      (parseStringBody rest).map (fun p => (c :: p.1, p.2)) := by
  by_cases h1 : c = '"'
  · subst h1
    rw [(by decide : jsonEscapeChar '"' = ['\\', '"'])]
    rw [List.cons_append, List.cons_append, List.nil_append,
      parseStringBody_esc _ _ (by decide), (by decide : escCharDecode '"' = some '"')]
  by_cases h2 : c = '\\'
  · subst h2
    rw [(by decide : jsonEscapeChar '\\' = ['\\', '\\'])]
    rw [List.cons_append, List.cons_append, List.nil_append,
      parseStringBody_esc _ _ (by decide), (by decide : escCharDecode '\\' = some '\\')]
  by_cases h3 : c = '\n'
  · subst h3
    rw [(by decide : jsonEscapeChar '\n' = ['\\', 'n'])]
    rw [List.cons_append, List.cons_append, List.nil_append,
      parseStringBody_esc _ _ (by decide), (by decide : escCharDecode 'n' = some '\n')]
  by_cases h4 : c = '\r'
  · subst h4
    rw [(by decide : jsonEscapeChar '\r' = ['\\', 'r'])]
    rw [List.cons_append, List.cons_append, List.nil_append,
      parseStringBody_esc _ _ (by decide), (by decide : escCharDecode 'r' = some '\r')]
  by_cases h5 : c = '\t'
  · subst h5
    rw [(by decide : jsonEscapeChar '\t' = ['\\', 't'])]
    rw [List.cons_append, List.cons_append, List.nil_append,
      parseStringBody_esc _ _ (by decide), (by decide : escCharDecode 't' = some '\t')]
  by_cases h6 : c.toNat = 8
  · have he : jsonEscapeChar c = ['\\', 'b'] := by
      unfold jsonEscapeChar
      rw [if_neg h1, if_neg h2, if_neg h3, if_neg h4, if_neg h5, if_pos h6]
    have hc : Char.ofNat 8 = c := by rw [← h6, Char.ofNat_toNat]
    rw [he, List.cons_append, List.cons_append, List.nil_append,
      parseStringBody_esc _ _ (by decide), (by decide : escCharDecode 'b' = some (Char.ofNat 8)),
      hc]
  by_cases h7 : c.toNat = 12
  · have he : jsonEscapeChar c = ['\\', 'f'] := by
      unfold jsonEscapeChar
      rw [if_neg h1, if_neg h2, if_neg h3, if_neg h4, if_neg h5, if_neg h6, if_pos h7]
    have hc : Char.ofNat 12 = c := by rw [← h7, Char.ofNat_toNat]
    rw [he, List.cons_append, List.cons_append, List.nil_append,
      parseStringBody_esc _ _ (by decide), (by decide : escCharDecode 'f' = some (Char.ofNat 12)),
      hc]
  by_cases h8 : c.toNat < 32
  · have he : jsonEscapeChar c =
        ['\\', 'u', '0', '0', hexDigitChar (c.toNat / 16), hexDigitChar (c.toNat % 16)] := by
      unfold jsonEscapeChar
      rw [if_neg h1, if_neg h2, if_neg h3, if_neg h4, if_neg h5, if_neg h6, if_neg h7, if_pos h8]
    have hdiv : c.toNat / 16 < 16 := by omega
    have hmod : c.toNat % 16 < 16 := by omega
    rw [he]
    simp only [List.cons_append, List.nil_append]
    rw [parseStringBody_u, hexVal_hexDigitChar _ hdiv, hexVal_hexDigitChar _ hmod,
      (by decide : hexVal '0' = some 0)]
    have hch : Char.ofNat (((0 * 16 + 0) * 16 + c.toNat / 16) * 16 + c.toNat % 16) = c := by
      have hval : ((0 * 16 + 0) * 16 + c.toNat / 16) * 16 + c.toNat % 16 = c.toNat := by
        omega
      rw [hval, Char.ofNat_toNat]
    show Option.map
        (fun p => (Char.ofNat (((0 * 16 + 0) * 16 + c.toNat / 16) * 16 + c.toNat % 16) :: p.1,
          p.2)) (parseStringBody rest) =
      Option.map (fun p => (c :: p.1, p.2)) (parseStringBody rest)
    rw [hch]
  · have he : jsonEscapeChar c = [c] := by
      unfold jsonEscapeChar
      rw [if_neg h1, if_neg h2, if_neg h3, if_neg h4, if_neg h5, if_neg h6, if_neg h7, if_neg h8]
    rw [he, List.cons_append, List.nil_append]
    exact parseStringBody_default c rest h1 h2

theorem parseStringBody_jsonEscape : ∀ (s rest : List Char),
    parseStringBody (jsonEscape s ++ '"' :: rest) = some (s, rest) := by
  intro s
  induction s with
  | nil =>
    intro rest
    simp only [jsonEscape, List.map_nil, List.flatten_nil, List.nil_append]
    exact parseStringBody_quot rest
  | cons c cs ih =>
    intro rest
    have hsplit : jsonEscape (c :: cs) = jsonEscapeChar c ++ jsonEscape cs := by
      simp [jsonEscape]
    rw [hsplit, List.append_assoc, parseStringBody_escapeChar, ih]
    rfl

theorem decodeStrField_encode (s : String) : decodeStrField (encodeStrField s) = some s := by
  obtain ⟨l⟩ := s
  have h1 : (encodeStrField ⟨l⟩).data = '"' :: (jsonEscape l ++ '"' :: []) := by
    simp [encodeStrField, String.data_append]
  unfold decodeStrField
  rw [h1]
  simp [parseStringBody_jsonEscape]

theorem encodeStrField_ne_null (s : String) : encodeStrField s ≠ "null" := by
  intro h
  have h2 := congrArg String.data h
  simp [encodeStrField, String.data_append] at h2

theorem decodeOptField_encode (o : Option String) : decodeOptField (encodeOptField o) = some o := by
  cases o with
  | none => simp [decodeOptField, encodeOptField]
  | some s =>
    unfold decodeOptField encodeOptField
    rw [if_neg (encodeStrField_ne_null s), decodeStrField_encode]
    rfl

/-! ## Stepping `organize_file` -/

theorem organize_file_skip (f today : String) (oc : Outcome) (s : OrgState)
    (h : isSystemFile f = true) :
    organize_file f oc s today =
      ({ s with
         stats := { s.stats with
                    total_files := s.stats.total_files + 1
                    skipped := s.stats.skipped + 1 }
         log := s.log ++ [LogEntry.debugSkip f] }, false) := by
  simp [organize_file, h]

theorem organize_file_errBefore (f msg today : String) (s : OrgState)
    (h : isSystemFile f = false) :
    organize_file f (Outcome.failBeforeCopy msg) s today =
      ({ s with
         stats := { s.stats with
                    total_files := s.stats.total_files + 1
                    errors := s.stats.errors + 1 }
         log := s.log ++ [LogEntry.errorEntry f msg] }, false) := by
  simp [organize_file, h]

theorem organize_file_failCopy (f msg today : String) (partialLeft : Bool) (s : OrgState)
    (h : isSystemFile f = false) :
    ∃ nm, nm ∉ destNames s.dest (analyze_filename f).category ∧
      organize_file f (Outcome.failCopy msg partialLeft) s today =
        ({ s with
           stats := { s.stats with
                      total_files := s.stats.total_files + 1
                      errors := s.stats.errors + 1 }
           dest := if partialLeft then
             s.dest ++ [((analyze_filename f).category, nm)] else s.dest
           log := s.log ++ [LogEntry.errorEntry f msg] }, false) := by
  obtain ⟨nm, hloop, hfree⟩ :=
    uniqueNameLoop_total (destNames s.dest (analyze_filename f).category) (analyze_filename f)
      today
  exact ⟨nm, hfree, by simp [organize_file, h, hloop]⟩

theorem organize_file_ok (f today : String) (s : OrgState)
    (h : isSystemFile f = false) :
    ∃ nm, nm ∉ destNames s.dest (analyze_filename f).category ∧
      organize_file f Outcome.ok s today =
        ({ stats := { s.stats with
                       total_files := s.stats.total_files + 1
                       processed := s.stats.processed + 1
                       categories := bumpCategory s.stats.categories (analyze_filename f).category }
           dest := s.dest ++ [((analyze_filename f).category, nm)]
           log := s.log ++ [LogEntry.infoProcessed f nm] }, true) := by
  obtain ⟨nm, hloop, hfree⟩ :=
    uniqueNameLoop_total (destNames s.dest (analyze_filename f).category) (analyze_filename f)
      today
  exact ⟨nm, hfree, by simp [organize_file, h, hloop]⟩

theorem organize_file_failSave (f msg today : String) (s : OrgState)
    (h : isSystemFile f = false) :
    ∃ nm, nm ∉ destNames s.dest (analyze_filename f).category ∧
      organize_file f (Outcome.failSave msg) s today =
        ({ stats := { s.stats with
                       total_files := s.stats.total_files + 1
                       processed := s.stats.processed + 1
                       errors := s.stats.errors + 1
                       categories := bumpCategory s.stats.categories (analyze_filename f).category }
           dest := s.dest ++ [((analyze_filename f).category, nm)]
           log := s.log ++ [LogEntry.infoProcessed f nm, LogEntry.errorEntry f msg] }, false) := by
  obtain ⟨nm, hloop, hfree⟩ :=
    uniqueNameLoop_total (destNames s.dest (analyze_filename f).category) (analyze_filename f)
      today
  exact ⟨nm, hfree, by simp [organize_file, h, hloop]⟩

theorem runFiles_cons (today f : String) (oc : Outcome) (rest : List (String × Outcome))
    (s : OrgState) :
    runFiles today ((f, oc) :: rest) s = runFiles today rest (organize_file f oc s today).1 := rfl

theorem organize_file_processed (f today : String) (oc : Outcome) (s : OrgState) :
    (organize_file f oc s today).1.stats.processed =
      s.stats.processed + (if countsProcessed (f, oc) then 1 else 0) := by
  by_cases hsys : isSystemFile f = true
  · rw [organize_file_skip f today oc s hsys]
    simp [countsProcessed, hsys]
  · rw [Bool.not_eq_true] at hsys
    cases oc with
    | ok =>
      obtain ⟨nm, -, heq⟩ := organize_file_ok f today s hsys
      rw [heq]
      simp [countsProcessed, hsys]
    | failBeforeCopy msg =>
      rw [organize_file_errBefore f msg today s hsys]
      simp [countsProcessed, hsys]
    | failCopy msg partialLeft =>
      obtain ⟨nm, -, heq⟩ := organize_file_failCopy f msg today partialLeft s hsys
      rw [heq]
      simp [countsProcessed, hsys]
    | failSave msg =>
      obtain ⟨nm, -, heq⟩ := organize_file_failSave f msg today s hsys
      rw [heq]
      simp [countsProcessed, hsys]

theorem runFiles_processed (today : String) : ∀ (files : List (String × Outcome)) (s : OrgState),
    (runFiles today files s).stats.processed =
      s.stats.processed + files.countP countsProcessed := by
  intro files
  induction files with
  | nil => intro s; simp [runFiles]
  | cons e rest ih =>
    intro s
    obtain ⟨f, oc⟩ := e
    rw [runFiles_cons, ih, organize_file_processed, List.countP_cons]
    by_cases hc : countsProcessed (f, oc) = true
    · omega
    · omega

/-! ## The stats balance invariant -/

theorem statsBalanced_step (f today : String) (oc : Outcome) (s : OrgState)
    (hb : statsBalanced s) (hoc : isFailSave oc = false) :
    statsBalanced (organize_file f oc s today).1 := by
  unfold statsBalanced at hb ⊢
  by_cases hsys : isSystemFile f = true
  · rw [organize_file_skip f today oc s hsys]
    simp
    omega
  · rw [Bool.not_eq_true] at hsys
    cases oc with
    | ok =>
      obtain ⟨nm, -, heq⟩ := organize_file_ok f today s hsys
      rw [heq]
      simp
      omega
    | failBeforeCopy msg =>
      rw [organize_file_errBefore f msg today s hsys]
      simp
      omega
    | failCopy msg partialLeft =>
      obtain ⟨nm, -, heq⟩ := organize_file_failCopy f msg today partialLeft s hsys
      rw [heq]
      simp
      omega
    | failSave msg => simp [isFailSave] at hoc

theorem runFiles_balanced (today : String) : ∀ (files : List (String × Outcome)) (s : OrgState),
    statsBalanced s → (∀ e ∈ files, isFailSave e.2 = false) →
    statsBalanced (runFiles today files s) := by
  intro files
  induction files with
  | nil => intro s hb _; exact hb
  | cons e rest ih =>
    intro s hb hall
    obtain ⟨f, oc⟩ := e
    rw [runFiles_cons]
    exact ih _ (statsBalanced_step f today oc s hb (hall (f, oc) (List.mem_cons_self _ _)))
      (fun e he => hall e (List.mem_cons_of_mem _ he))

/-! ## Keyword tables: concrete facts -/

theorem category_keywords_lower : ∀ p ∈ FILE_CATEGORIES, ∀ k ∈ p.2, pyLower k = k := by decide

theorem category_labels_ne_other : ∀ p ∈ FILE_CATEGORIES, p.1 ≠ "other" := by decide

theorem occursIn_pyLower (k f : String) (hk : pyLower k = k)
    (h : occursIn k.data f.data = true) :
    occursIn k.data (pyLower f).data = true := by
  have h3 : k.data.map pyLowerChar = k.data := congrArg String.data hk
  have h2 := occursIn_map pyLowerChar k.data f.data h
  rw [h3] at h2
  exact h2

theorem lastDotIdx_drop : ∀ (l : List Char) (i : Nat), lastDotIdx l = some i →
    ∃ t, l.drop i = '.' :: t := by
  intro l
  induction l with
  | nil => intro i h; cases h
  | cons c cs ih =>
    intro i h
    simp only [lastDotIdx] at h
    cases hin : lastDotIdx cs with
    | some j =>
      rw [hin] at h
      injection h with h
      subst h
      exact ih j hin
    | none =>
      rw [hin] at h
      by_cases hc : c == '.'
      · rw [if_pos hc] at h
        injection h with h
        subst h
        exact ⟨cs, by simp [List.drop, eq_of_beq hc]⟩
      · rw [if_neg hc] at h
        cases h

theorem pySuffix_shape (name : String) :
    pySuffix name = "" ∨ ∃ t, (pySuffix name).data = '.' :: t := by
  unfold pySuffix
  cases hin : lastDotIdx name.data with
  | none => exact Or.inl rfl
  | some i =>
    by_cases hcond : 0 < i ∧ i < name.data.length - 1
    · refine Or.inr ?_
      obtain ⟨t, ht⟩ := lastDotIdx_drop name.data i hin
      refine ⟨t, ?_⟩
      show (if 0 < i ∧ i < name.data.length - 1 then
        (⟨name.data.drop i⟩ : String) else "").data = '.' :: t
      rw [if_pos hcond]
      exact ht
    · refine Or.inl ?_
      show (if 0 < i ∧ i < name.data.length - 1 then
        (⟨name.data.drop i⟩ : String) else "") = ""
      rw [if_neg hcond]

/-! # Claims -/

/-- C1: for every filename, `classify` extracts the date by testing
the `DD[-.]MM[-.]YYYY` pattern and then the `YYYY[-.]MM[-.]DD` pattern
against the original (not lower-cased) filename, taking the first
structural match, reassembling the captured groups as `YYYY-MM-DD`
with no calendar-validity check (day 99 is accepted as written), and
leaving the date absent when neither pattern matches; in particular
`classify("15.03.2024_report.pdf")` yields date `2024-03-15` (and
file type `documents`). -/
theorem claim_C1_date_extraction :
    (∀ f : String, (analyze_filename f).date = specDateExtraction f) ∧
    (analyze_filename "15.03.2024_report.pdf").date = some "2024-03-15" ∧
    (analyze_filename "15.03.2024_report.pdf").file_type = "documents" ∧
    (analyze_filename "99.99.2024_report.pdf").date = some "2024-99-99" :=
  ⟨fun f => extractDate_eq_spec f, by decide, by decide, by decide⟩

/-- C2 counterexample: `classify("randomfile.xyz")` leaves the subject
field absent (Python `None`), not equal to the string `"unknown"`;
the claim asserts the subject is the string `"unknown"` rather than an
absent/null value. -/
theorem claim_C2_counterexample :
    (analyze_filename "randomfile.xyz").subject = none ∧
    (analyze_filename "randomfile.xyz").subject ≠ some "unknown" := by
  refine ⟨by decide, ?_⟩
  intro h
  rw [(by decide : (analyze_filename "randomfile.xyz").subject = none)] at h
  cases h

/-- C2 (amended): for every filename whose lower-cased form contains
none of the subject keywords, `classify` returns a FileInfo whose
subject field is absent (`None`); the string `"unknown"` is only
substituted later by the namer.  In particular
`classify("randomfile.xyz")` yields subject absent, category
`"other"`, date absent, file type `"other"`. -/
theorem claim_C2_subject_absent (f : String)
    (h : ∀ p ∈ subject_patterns, ∀ k ∈ p.2, occursIn k.data (pyLower f).data = false) :
    (analyze_filename f).subject = none ∧
    analyze_filename "randomfile.xyz" =
      { original_name := "randomfile.xyz", subject := none, category := "other",
        date := none, file_type := "other", new_name := none } := by
  constructor
  · show firstMatch subject_patterns (pyLower f) = none
    rw [firstMatch_none_iff]
    intro p hp
    simp only [kwMatches, List.any_eq_false]
    intro k hk
    rw [h p hp k hk]
    simp
  · decide

/-- Witness for C2 (amended) at the concrete input
`"randomfile.xyz"`. -/
theorem claim_C2_subject_absent_witness :
    (∀ p ∈ subject_patterns, ∀ k ∈ p.2,
      occursIn k.data (pyLower "randomfile.xyz").data = false) ∧
    (analyze_filename "randomfile.xyz").subject = none :=
  ⟨by decide, (claim_C2_subject_absent "randomfile.xyz" (by decide)).1⟩

/-- C3 counterexample: a FileInfo whose subject is present but equal
to the empty string is renamed with the `"unknown"` fallback (Python
truthiness), not with the template's `{subject}` component. -/
theorem claim_C3_counterexample :
    generate_new_name
        { original_name := "a.txt", subject := some "", category := "other",
          date := none, file_type := "other", new_name := none } 1 "2026-02-03" =
      "unknown_other_2026-02-03_other_01.txt" ∧
    ("unknown_other_2026-02-03_other_01.txt" : String) ≠
      "" ++ "_" ++ "other" ++ "_" ++ "2026-02-03" ++ "_" ++ "other" ++ "_" ++ "01" ++ ".txt" := by
  constructor
  · decide
  · decide

/-- C3 (amended): for every FileInfo, counter ≥ 1 and current date,
`build_name` returns exactly
`{subject}_{category}_{date_or_today}_{file_type}_{counter:02d}{extension}`,
where the subject component falls back to `"unknown"` when the
subject is absent or the empty string, the date component uses the
extracted date when present and non-empty and otherwise the current
date, the counter is zero-padded to two digits (values below 100),
values ≥ 100 are rendered unpadded but remain a valid decimal, and
the extension is the original filename's extension including the
leading dot (possibly empty). -/
theorem claim_C3_template (fi : FileInfo) (counter : Nat) (today : String)
    (h : 1 ≤ counter) :
    generate_new_name fi counter today =
      (match fi.subject with
       | some s => if s = "" then "unknown" else s
       | none => "unknown") ++ "_" ++ fi.category ++ "_" ++
      (match fi.date with
       | some d => if d = "" then today else d
       | none => today) ++ "_" ++ fi.file_type ++ "_" ++ pad2 counter ++
      pySuffix fi.original_name ∧
    parseDec (pad2 counter).data = counter ∧
    (counter < 100 → (pad2 counter).data.length = 2) ∧
    (100 ≤ counter → pad2 counter = decRepr counter) ∧
    (pySuffix fi.original_name = "" ∨ ∃ t, (pySuffix fi.original_name).data = '.' :: t) := by
  refine ⟨?_, ?_, ?_, ?_, pySuffix_shape fi.original_name⟩
  · apply String.ext
    simp only [generate_new_name, joinUnderscore, String.data_append, List.append_assoc]
  · by_cases h10 : counter < 10
    · rw [pad2_data_lt h10]
      simp [parseDec, digitChar10_toNat counter h10]
    · rw [pad2, if_neg h10]
      exact decRepr_parse counter
  · intro h100
    by_cases h10 : counter < 10
    · rw [pad2_data_lt h10]
      rfl
    · rw [pad2, if_neg h10]
      obtain ⟨m, rfl⟩ : ∃ m, counter = m + 1 := ⟨counter - 1, by omega⟩
      show (decDigitsAux (m + 1 + 1) (m + 1)).length = 2
      rw [decDigitsAux, if_neg (by omega)]
      have hdd : decDigitsAux (m + 1) ((m + 1) / 10) = [digitChar10 ((m + 1) / 10)] := by
        rw [decDigitsAux, if_pos (by omega)]
      rw [hdd]
      rfl
  · intro h100
    rw [pad2, if_neg (by omega)]

/-- Witness for C3 (amended) at counter 100: the overflowed counter is
rendered unpadded and the extension of a double-dotted name is its
final suffix only. -/
theorem claim_C3_template_witness :
    1 ≤ 100 ∧
    generate_new_name
        { original_name := "b.tar.gz", subject := some "math", category := "lecture",
          date := some "2024-03-15", file_type := "archives", new_name := none } 100
        "2026-02-03" =
      "math_lecture_2024-03-15_archives_100.gz" := by
  refine ⟨by decide, ?_⟩
  rw [(claim_C3_template
    { original_name := "b.tar.gz", subject := some "math", category := "lecture",
      date := some "2024-03-15", file_type := "archives", new_name := none } 100
    "2026-02-03" (by decide)).1]
  decide

/-- C4: for every finite list of names already present in the
destination subdirectory, the uniqueness-resolution loop of
`organize_file` (start at counter 1, build a name, check existence,
increment) terminates within `length + 1` iterations, and the name it
finalizes does not collide with any existing file. -/
theorem claim_C4_unique_name (existing : List String) (info : FileInfo) (today : String) :
    ∃ name, uniqueNameLoop existing info today (existing.length + 1) 1 = some name ∧
      name ∉ existing :=
  uniqueNameLoop_total existing info today

/-- C5: for every filename containing a keyword of some category,
`classify` returns a category that is not the default `"other"`, and
that category is exactly the first category in the fixed enumeration
order (lecture, practice, project, lab, material, exam) whose keyword
list matches the lower-cased filename — so when keywords of two
categories both occur, the one tested first wins. -/
theorem claim_C5_category_first_match (f cat k : String) (kws : List String)
    (h1 : (cat, kws) ∈ FILE_CATEGORIES) (h2 : k ∈ kws)
    (h3 : occursIn k.data f.data = true) :
    (analyze_filename f).category ≠ "other" ∧
    FILE_CATEGORIES.map Prod.fst =
      ["lecture", "practice", "project", "lab", "material", "exam"] ∧
    ∃ pre kws2 post, FILE_CATEGORIES = pre ++ ((analyze_filename f).category, kws2) :: post ∧
      (∀ p ∈ pre, kwMatches (pyLower f) p.2 = false) ∧
      kwMatches (pyLower f) kws2 = true := by
  have hk : pyLower k = k := category_keywords_lower (cat, kws) h1 k h2
  have hocc : occursIn k.data (pyLower f).data = true := occursIn_pyLower k f hk h3
  have hmatch : kwMatches (pyLower f) kws = true := by
    simp only [kwMatches, List.any_eq_true]
    exact ⟨k, h2, hocc⟩
  cases hfm : firstMatch FILE_CATEGORIES (pyLower f) with
  | none =>
    exfalso
    have hnone := (firstMatch_none_iff FILE_CATEGORIES (pyLower f)).1 hfm (cat, kws) h1
    simp only at hnone
    simp [hmatch] at hnone
  | some lab =>
    have hcat : (analyze_filename f).category = lab := by
      show (firstMatch FILE_CATEGORIES (pyLower f)).getD "other" = lab
      rw [hfm]
      rfl
    obtain ⟨pre, kws2, post, heq, hpre, hkws2⟩ :=
      (firstMatch_some_iff FILE_CATEGORIES (pyLower f) lab).1 hfm
    have hmem : (lab, kws2) ∈ FILE_CATEGORIES := by
      rw [heq]
      exact List.mem_append_right _ (List.mem_cons_self _ _)
    refine ⟨?_, by decide, pre, kws2, post, ?_, hpre, hkws2⟩
    · rw [hcat]
      exact category_labels_ne_other (lab, kws2) hmem
    · rw [hcat]
      exact heq

/-- Witness for C5 at `"lab_test_notes.txt"`: both a `lab` keyword
(`lab`) and an `exam` keyword (`test`) occur, and the category tested
first wins. -/
theorem claim_C5_witness :
    (("exam", ["экзамен", "exam", "зачет", "test", "контрольная"]) ∈ FILE_CATEGORIES ∧
     "test" ∈ ["экзамен", "exam", "зачет", "test", "контрольная"] ∧
     occursIn "test".data "lab_test_notes.txt".data = true) ∧
    (analyze_filename "lab_test_notes.txt").category = "lab" ∧
    (analyze_filename "lab_test_notes.txt").category ≠ "other" := by
  refine ⟨⟨by decide, by decide, by decide⟩, by decide, ?_⟩
  exact (claim_C5_category_first_match "lab_test_notes.txt" "exam" "test"
    ["экзамен", "exam", "зачет", "test", "контрольная"] (by decide) (by decide) (by decide)).1

/-- C6 counterexample: when `shutil.copy2` raises mid-write, the
`except` branch of `organize_file` performs no cleanup, so a partial
file for the failed item remains at the destination: the claim's
"no partial file is left at the destination for the failed item" does
not hold, even though the error is caught and counted. -/
theorem claim_C6_counterexample :
    (organize_file "report.txt" (Outcome.failCopy "disk full" true) initState
      "2026-02-03").1.dest =
      [("other", "unknown_other_2026-02-03_documents_01.txt")] ∧
    (organize_file "report.txt" (Outcome.failCopy "disk full" true) initState
      "2026-02-03").1.dest ≠ initState.dest ∧
    (organize_file "report.txt" (Outcome.failCopy "disk full" true) initState
      "2026-02-03").1.stats.errors = initState.stats.errors + 1 :=
  ⟨by decide, by decide, by decide⟩

/-- C6 (amended): every per-file processing failure — a failure
before the copy, a failed copy (whether or not it left partial data
behind), or a failed metadata save — is caught at single-file
granularity, logged with the filename and the error detail, and
counted in the error tally (the skip tally is untouched); the call
reports failure and processing continues with the next file instead
of aborting the run, later files being processed exactly as their own
outcomes dictate.  No cleanup is performed, so a mid-write copy
failure may leave a partial file at the destination for the failed
item. -/
theorem claim_C6_failure_handling (f msg today : String) (oc : Outcome) (s : OrgState)
    (h : isSystemFile f = false)
    (hoc : oc = Outcome.failBeforeCopy msg ∨
      (∃ partialLeft, oc = Outcome.failCopy msg partialLeft) ∨
      oc = Outcome.failSave msg) :
    (organize_file f oc s today).1.stats.errors = s.stats.errors + 1 ∧
    (organize_file f oc s today).1.stats.skipped = s.stats.skipped ∧
    LogEntry.errorEntry f msg ∈ (organize_file f oc s today).1.log ∧
    (organize_file f oc s today).2 = false ∧
    ∀ rest : List (String × Outcome),
      (runFiles today rest (organize_file f oc s today).1).stats.processed =
        (organize_file f oc s today).1.stats.processed + rest.countP countsProcessed := by
  rcases hoc with rfl | ⟨partialLeft, rfl⟩ | rfl
  · rw [organize_file_errBefore f msg today s h]
    exact ⟨rfl, rfl, by simp, rfl, fun rest => runFiles_processed today rest _⟩
  · obtain ⟨nm, -, heq⟩ := organize_file_failCopy f msg today partialLeft s h
    rw [heq]
    exact ⟨rfl, rfl, by simp, rfl, fun rest => runFiles_processed today rest _⟩
  · obtain ⟨nm, -, heq⟩ := organize_file_failSave f msg today s h
    rw [heq]
    exact ⟨rfl, rfl, by simp, rfl, fun rest => runFiles_processed today rest _⟩

/-- Witness for C6 (amended) at a concrete failed copy that left
partial data behind. -/
theorem claim_C6_failure_handling_witness :
    isSystemFile "data.bin" = false ∧
    (organize_file "data.bin" (Outcome.failCopy "copy failed" true) initState
      "2026-02-03").1.stats.errors = initState.stats.errors + 1 :=
  ⟨by decide, (claim_C6_failure_handling "data.bin" "copy failed" "2026-02-03"
    (Outcome.failCopy "copy failed" true) initState (by decide)
    (Or.inr (Or.inl ⟨true, rfl⟩))).1⟩

/-- C7: every filename that starts with a dot or exactly matches a
reserved OS artifact name is counted as skipped (not as an error, not
as processed), nothing is copied to the destination, and the call
reports failure — for every outcome of the surrounding I/O. -/
theorem claim_C7_skip (f today : String) (oc : Outcome) (s : OrgState)
    (h : startsWithDot f = true ∨ f = "desktop.ini" ∨ f = "thumbs.db") :
    (organize_file f oc s today).1.stats.skipped = s.stats.skipped + 1 ∧
    (organize_file f oc s today).1.stats.errors = s.stats.errors ∧
    (organize_file f oc s today).1.stats.processed = s.stats.processed ∧
    (organize_file f oc s today).1.dest = s.dest ∧
    (organize_file f oc s today).2 = false := by
  have hsys : isSystemFile f = true := by
    unfold isSystemFile
    rcases h with h | h | h <;> simp [h]
  rw [organize_file_skip f today oc s hsys]
  exact ⟨rfl, rfl, rfl, rfl, rfl⟩

/-- Witness for C7 at a hidden file. -/
theorem claim_C7_skip_witness :
    (startsWithDot ".DS_Store" = true ∨ (".DS_Store" : String) = "desktop.ini" ∨
      (".DS_Store" : String) = "thumbs.db") ∧
    (organize_file ".DS_Store" Outcome.ok initState "2026-02-03").1.stats.skipped =
      initState.stats.skipped + 1 :=
  ⟨Or.inl (by decide), (claim_C7_skip ".DS_Store" "2026-02-03" Outcome.ok initState
    (Or.inl (by decide))).1⟩

/-- C8: serializing a FileInfo record to the JSON metadata store and
reloading it is the identity on the record, for every FileInfo; and
with `ensure_ascii=False` every character outside the escaped set
(quote, backslash, control characters) — in particular all non-Latin
text — is written verbatim. -/
theorem claim_C8_roundtrip :
    (∀ fi : FileInfo, decodeFileInfo (encodeFileInfo fi) = some fi) ∧
    (∀ c : Char, 32 ≤ c.toNat → c ≠ '"' → c ≠ '\\' → jsonEscapeChar c = [c]) := by
  constructor
  · intro fi
    obtain ⟨a, b, c, d, e, f⟩ := fi
    rw [show encodeFileInfo ⟨a, b, c, d, e, f⟩ = [("original_name", encodeStrField a),
        ("subject", encodeOptField b), ("category", encodeStrField c),
        ("date", encodeOptField d), ("file_type", encodeStrField e),
        ("new_name", encodeOptField f)] from rfl]
    rw [decodeFileInfo]
    rw [if_pos ⟨rfl, rfl, rfl, rfl, rfl, rfl⟩]
    rw [decodeStrField_encode, decodeOptField_encode, decodeStrField_encode,
      decodeOptField_encode, decodeStrField_encode, decodeOptField_encode]
  · intro c hc h1 h2
    unfold jsonEscapeChar
    rw [if_neg h1, if_neg h2,
      if_neg (by rintro rfl; exact absurd hc (by decide)),
      if_neg (by rintro rfl; exact absurd hc (by decide)),
      if_neg (by rintro rfl; exact absurd hc (by decide)),
      if_neg (by omega), if_neg (by omega), if_neg (by omega)]

/-- C9: the OS-artifact part of the skip check is a case-sensitive
exact comparison with `desktop.ini` and `thumbs.db`: a filename that
differs from these only in letter case and does not start with a dot
is not skipped, and with a successful outcome it is processed and
copied into the destination tree like any ordinary file. -/
theorem claim_C9_case_sensitive (f today : String) (s : OrgState)
    (_h1 : pyLower f = "desktop.ini" ∨ pyLower f = "thumbs.db")
    (h2 : f ≠ "desktop.ini") (h3 : f ≠ "thumbs.db")
    (h4 : startsWithDot f = false) :
    isSystemFile f = false ∧
    ∃ nm, (organize_file f Outcome.ok s today).1.stats.processed = s.stats.processed + 1 ∧
      (organize_file f Outcome.ok s today).1.stats.skipped = s.stats.skipped ∧
      (organize_file f Outcome.ok s today).1.dest =
        s.dest ++ [((analyze_filename f).category, nm)] ∧
      (organize_file f Outcome.ok s today).2 = true := by
  have hsys : isSystemFile f = false := by
    unfold isSystemFile
    simp [h2, h3, h4]
  obtain ⟨nm, -, heq⟩ := organize_file_ok f today s hsys
  rw [heq]
  exact ⟨hsys, nm, rfl, rfl, rfl, rfl⟩

/-- Witness for C9 at `"Thumbs.db"`. -/
theorem claim_C9_case_sensitive_witness :
    (pyLower "Thumbs.db" = "thumbs.db" ∧ ("Thumbs.db" : String) ≠ "desktop.ini" ∧
      ("Thumbs.db" : String) ≠ "thumbs.db" ∧ startsWithDot "Thumbs.db" = false) ∧
    isSystemFile "Thumbs.db" = false :=
  ⟨⟨by decide, by decide, by decide, by decide⟩,
    (claim_C9_case_sensitive "Thumbs.db" "2026-02-03" initState (Or.inr (by decide))
      (by decide) (by decide) (by decide)).1⟩

/-- C10 counterexample: a failure inside `save_file_info` is raised
after `processed` was already incremented, so the same file is counted
both as processed and as an error and the balance
`total_files = processed + skipped + errors` breaks after one call. -/
theorem claim_C10_counterexample :
    ¬ statsBalanced (organize_file "report.txt" (Outcome.failSave "disk full") initState
        "2026-02-03").1 := by
  obtain ⟨nm, -, heq⟩ :=
    organize_file_failSave "report.txt" "disk full" "2026-02-03" initState (by decide)
  rw [heq]
  unfold statsBalanced
  simp [initState]

/-- C10 (amended): after every sequence of `organize_file` calls in
which no caught failure occurs during the metadata save (the one
fallible step that runs after the success tally), the run statistics
satisfy `total_files = processed + skipped + errors` — every counted
file lands in exactly one outcome tally. -/
theorem claim_C10_balance (today : String) (files : List (String × Outcome))
    (h : ∀ e ∈ files, isFailSave e.2 = false) :
    statsBalanced (runFiles today files initState) :=
  runFiles_balanced today files initState rfl h

/-- Witness for C10 (amended) over a run with a success, a skip and a
caught copy failure. -/
theorem claim_C10_balance_witness :
    (∀ e ∈ [("a.txt", Outcome.ok), (".hidden", Outcome.ok),
      ("b.pdf", Outcome.failCopy "err" true)], isFailSave e.2 = false) ∧
    statsBalanced (runFiles "2026-02-03" [("a.txt", Outcome.ok), (".hidden", Outcome.ok),
      ("b.pdf", Outcome.failCopy "err" true)] initState) :=
  ⟨by decide, claim_C10_balance "2026-02-03" [("a.txt", Outcome.ok), (".hidden", Outcome.ok),
    ("b.pdf", Outcome.failCopy "err" true)] (by decide)⟩

end Organizer
